import Mathlib

/-!
# Verification of the containerfs datanode partition module

A shallow embedding of `datanode/partition.go`: the data-partition meta
codec and validation, construction (`CreateDataPartition`,
`LoadDataPartition`, `newDataPartition`), status computation
(`statusUpdate`), replica-host / leadership resolution
(`fetchReplicaHosts`, `updateReplicaHosts`), the health snapshot
(`Load`), object access helpers (`GetObjects`, `DelObjects`) and the
extent-store repair merger (`MergeExtentStoreRepair`).

External collaborators (the `storage`, `proto` and `master` packages,
the filesystem and the master transport) are modelled as explicit
parameters or small state records; Go machine integers become `Nat`
(with an explicit modulus where 64-bit wrap-around matters) or `Int`.
-/

namespace ContainerFS

/-- Modelled from the spec: the partition status constants of the external
`proto` package, ordered so that the minimum is the most restrictive
status (`Unavaliable < ReadOnly < ReadWrite`), as required for the
"final status = min(target, disk status)" rule.  The misspelling
`Unavaliable` is the source's. -/
def ReadOnly : Int := 1

/-- See `ReadOnly`. -/
def ReadWrite : Int := 2

/-- See `ReadOnly`. -/
def Unavaliable : Int := -1

/-- Modelled from the spec: the external `proto.TaskFail` status carried by
a failed health-snapshot response.  A fresh Go response struct starts with
the zero status `0`, so `TaskFail` is any fixed nonzero value. -/
def TaskFail : Int := 2

/-- Modelled from the spec: `storage.ObjectIdLen`, the fixed 8-byte
object-id encoding width of the delete-object buffer wire format. -/
def ObjectIdLen : Nat := 8

/-- Modelled from the spec: `storage.MarkDeleteObject`, the reserved
sentinel size value denoting a "marked deleted" object. -/
def MarkDeleteObject : Nat := 4294967295

/-- Whitespace test of Go's `strings.TrimSpace` (`unicode.IsSpace`),
restricted to the Latin-1 range; the astral space classes play no role in
the fields handled here. -/
def goIsSpace (c : Char) : Bool :=
  c = ' ' || c = '\t' || c = '\n' || c = Char.ofNat 11 || c = Char.ofNat 12 ||
    c = '\r' || c = Char.ofNat 133 || c = Char.ofNat 160

/-- Go `strings.TrimSpace`: drop leading and trailing whitespace. -/
def trimSpace (s : String) : String :=
  String.mk (((s.data.dropWhile goIsSpace).reverse.dropWhile goIsSpace).reverse)

/-- Worker for `goSplit`: cut the character list at every separator;
`acc` holds the current field reversed. -/
def splitOnCharAux (sep : Char) : List Char → List Char → List (List Char)
  | [], acc => [acc.reverse]
  | c :: rest, acc =>
    if c = sep then acc.reverse :: splitOnCharAux sep rest []
    else splitOnCharAux sep rest (c :: acc)

/-- Go `strings.Split` for a one-character separator: all the substrings
between consecutive separators, `n` separators yielding `n + 1` parts
(`""` yields `[""]`). -/
def goSplit (s : String) (sep : Char) : List String :=
  (splitOnCharAux sep s.data []).map String.mk

/-- The persisted partition meta record (`dataPartitionMeta`). -/
structure dataPartitionMeta where
  VolumeId : String
  PartitionType : String
  PartitionId : Nat
  PartitionSize : Int
  CreateTime : String
  deriving DecidableEq

/-- `(*dataPartitionMeta).Validate`: trims `VolumeId` and `PartitionType`
in place, then rejects the record when either trimmed field is empty or
`PartitionId`/`PartitionSize` is zero.  Returns the (mutated) record
together with the error. -/
def Validate (meta : dataPartitionMeta) : dataPartitionMeta × Option String :=
  let meta := { meta with VolumeId := trimSpace meta.VolumeId,
                          PartitionType := trimSpace meta.PartitionType }
  if meta.VolumeId.length = 0 || meta.PartitionType.length = 0 ||
      meta.PartitionId = 0 || meta.PartitionSize = 0 then
    (meta, some "illegal data partition meta")
  else
    (meta, none)

/-- Modelled from the spec: the hosting `Disk` (defined outside this file's
source) with its path, status and its non-owning registry of attached
partition ids. -/
structure Disk where
  Path : String
  Status : Int
  attachedPartitions : List Nat
  deriving DecidableEq

/-- Modelled from the spec: `(*Disk).AttachDataPartition` registers a
partition with the disk's registry. -/
def AttachDataPartition (d : Disk) (partitionId : Nat) : Disk :=
  { d with attachedPartitions := d.attachedPartitions ++ [partitionId] }

/-- The runtime `dataPartition` record (store bindings, metrics and the
stop channel are external state and are passed explicitly where needed;
the disk back-reference is likewise passed explicitly). -/
structure dataPartition where
  volumeId : String
  partitionId : Nat
  partitionStatus : Int
  partitionSize : Int
  replicaHosts : List String
  isLeader : Bool
  path : String
  used : Int
  deriving DecidableEq

/-- The partition directory path derived in `newDataPartition`:
`path.Join(disk.Path, "datapartition_<id>_<size>")`. -/
def partitionPath (diskPath : String) (partitionId : Nat) (size : Int) : String :=
  diskPath ++ "/datapartition_" ++ toString partitionId ++ "_" ++ toString size

/-- Outcomes of the two store-binding initializations performed by
`newDataPartition` (`storage.NewExtentStore`, `storage.NewBlobStore`);
both are external collaborators. -/
structure StoreInitEnv where
  extentStoreInit : Except String Unit
  blobStoreInit : Except String Unit

/-- `newDataPartition`: builds the runtime record, initializes the two
store bindings and, only when both succeed, attaches the partition to its
`Disk`.  Mirrors the Go named returns: `(dp?, err?)` plus the resulting
disk state. -/
def newDataPartition (volumeId : String) (partitionId : Nat) (disk : Disk)
    (size : Int) (env : StoreInitEnv) :
    (Option dataPartition × Option String) × Disk :=
  let partition : dataPartition :=
    { volumeId := volumeId
      partitionId := partitionId
      path := partitionPath disk.Path partitionId size
      partitionSize := size
      replicaHosts := []
      partitionStatus := ReadWrite
      isLeader := false
      used := 0 }
  match env.extentStoreInit with
  | Except.error e => ((none, some e), disk)
  | Except.ok _ =>
    match env.blobStoreInit with
    | Except.error e => ((none, some e), disk)
    | Except.ok _ => ((some partition, none), AttachDataPartition disk partitionId)

/-- Outcomes of the meta-file filesystem operations in
`CreateDataPartition` (`os.OpenFile` with create, `metaFile.Write`). -/
structure MetaFileEnv where
  openOk : Bool
  writeOk : Bool

/-- Observable result of `CreateDataPartition`: the Go returns
`(dp, err)`, the disk registry after the call, and the content of the META
file after the call.  The JSON codec for the fixed meta record is an
external collaborator that round-trips exactly, so the file content is
modelled as the record itself (`none` when nothing was written). -/
structure CreateResult where
  dp : Option dataPartition
  err : Option String
  disk : Disk
  metaFile : Option dataPartitionMeta
  deriving DecidableEq

/-- `CreateDataPartition`: runtime construction via `newDataPartition`,
then meta-file creation and write.  Note that a meta-file failure after a
successful `newDataPartition` returns early with both the error and the
already-constructed (and already-attached) partition in the named
returns. -/
def CreateDataPartition (volId : String) (partitionId : Nat) (disk : Disk)
    (size : Int) (partitionType : String) (now : String)
    (senv : StoreInitEnv) (fenv : MetaFileEnv) : CreateResult :=
  match newDataPartition volId partitionId disk size senv with
  | ((none, e), disk') => { dp := none, err := e, disk := disk', metaFile := none }
  | ((some p, _), disk') =>
    if !fenv.openOk then
      { dp := some p, err := some "open META failed", disk := disk', metaFile := none }
    else
      let meta : dataPartitionMeta :=
        { VolumeId := volId
          PartitionId := partitionId
          PartitionType := partitionType
          PartitionSize := size
          CreateTime := now }
      if !fenv.writeOk then
        { dp := some p, err := some "write META failed", disk := disk', metaFile := none }
      else
        { dp := some p, err := none, disk := disk', metaFile := some meta }

/-- Observable result of `LoadDataPartition`. -/
structure LoadResult where
  dp : Option dataPartition
  err : Option String
  disk : Disk
  validatedMeta : Option dataPartitionMeta
  deriving DecidableEq

/-- `LoadDataPartition`: read the META file (a failed read or decode is
the `none` input), validate the decoded record, then run the same runtime
construction as creation.  The validated (trimmed) record is the one the
construction consumes. -/
def LoadDataPartition (metaFileData : Option dataPartitionMeta) (disk : Disk)
    (senv : StoreInitEnv) : LoadResult :=
  match metaFileData with
  | none => { dp := none, err := some "read META failed", disk := disk, validatedMeta := none }
  | some meta =>
    match Validate meta with
    | (meta, some e) =>
      { dp := none, err := some e, disk := disk, validatedMeta := some meta }
    | (meta, none) =>
      let r := newDataPartition meta.VolumeId meta.PartitionId disk meta.PartitionSize senv
      { dp := r.1.1, err := r.1.2, disk := r.2, validatedMeta := some meta }

/-- `computeUsage`: recompute `used` by summing the sizes of the files
under the partition path; a directory-read failure (`none`) leaves `used`
unchanged. -/
def computeUsage (st : dataPartition) (dirFiles : Option (List Int)) : dataPartition :=
  match dirFiles with
  | none => st
  | some files => { st with used := files.foldl (fun a b => a + b) 0 }

/-- `statusUpdate`: the periodic status tick.  Recomputes usage, derives
the target status (`ReadOnly` once `used >= partitionSize`, else
`ReadWrite`) and stores the minimum of the target and the hosting disk's
status.  (The leader-only blob-store notification
`MoveBlobFileToUnavailChan` is an external effect with no bearing on the
resulting status and carries no state here; Go's `math.Min` over these
small exact integers is integer `min`.) -/
def statusUpdate (st : dataPartition) (diskStatus : Int)
    (dirFiles : Option (List Int)) : dataPartition :=
  let status := ReadWrite
  let st := computeUsage st dirFiles
  let status := if st.used ≥ st.partitionSize then ReadOnly else status
  { st with partitionStatus := min status diskStatus }

/-- The relevant field of the master's admin response
(`master.DataPartition`): the ordered replica host list.  A JSON decode
leaves the field `none` (Go `nil`) when absent. -/
structure MasterDataPartition where
  PersistenceHosts : Option (List String)
  deriving DecidableEq

/-- `fetchReplicaHosts`: queries the master for the partition's replica
hosts.  The transport and the JSON decode are external collaborators,
modelled as a nested `Except`: the outer layer is the
`MasterHelper.Request` outcome, the inner the `json.Unmarshal` outcome.
Mirrors the Go named returns `(isLeader, replicaHosts, err)`; on a request
failure `replicaHosts` keeps its zero value (`none` = Go `nil`), on a
decode failure it is explicitly set to `nil`. -/
def fetchReplicaHosts (localIP : String)
    (requestResult : Except String (Except String MasterDataPartition)) :
    Bool × Option (List String) × Option String :=
  match requestResult with
  | Except.error e => (false, none, some e)
  | Except.ok decodeResult =>
    match decodeResult with
    | Except.error e => (false, none, some e)
    | Except.ok response =>
      let replicaHosts := response.PersistenceHosts.getD []
      let isLeader :=
        match response.PersistenceHosts with
        | none => false
        | some hs =>
          match hs with
          | [] => false
          | leaderAddr :: _ =>
            let leaderAddrParts := goSplit leaderAddr ':'
            decide (leaderAddrParts.length = 2) &&
              trimSpace (leaderAddrParts.headD "") = localIP
      (isLeader, some replicaHosts, none)

/-- `updateReplicaHosts`: optimistically clears leadership, fetches the
fresh host list, and on success installs the fetched leadership flag and
replaces the whole stored list; on failure returns the error with the
stored list untouched.  (The host-list comparison feeds only a change
log.) -/
def updateReplicaHosts (st : dataPartition) (localIP : String)
    (requestResult : Except String (Except String MasterDataPartition)) :
    dataPartition × Option String :=
  let st := { st with isLeader := false }
  match fetchReplicaHosts localIP requestResult with
  | (_, _, some e) => (st, some e)
  | (isLeader, replicas, none) =>
    ({ st with isLeader := isLeader, replicaHosts := replicas.getD [] }, none)

/-- `proto.LoadDataPartitionResponse`, zero-initialized as in Go. -/
structure LoadDataPartitionResponse where
  PartitionId : Nat
  PartitionStatus : Int
  Used : Int
  PartitionSnapshot : List Nat
  Status : Int
  Result : String
  deriving DecidableEq

/-- `(*dataPartition).Load`: the health snapshot.  The two store snapshot
calls are external collaborators (`Except`); a store returns no bytes
alongside an error.  On an extent-snapshot failure the response reports
`TaskFail` with the error text; on a blob-snapshot failure it likewise
reports `TaskFail`, returning with `PartitionSnapshot` still holding the
extent bytes already assigned. -/
def dataPartition.Load (st : dataPartition)
    (extentSnap blobSnap : Except String (List Nat)) : LoadDataPartitionResponse :=
  let response : LoadDataPartitionResponse :=
    { PartitionId := st.partitionId
      PartitionStatus := st.partitionStatus
      Used := st.used
      PartitionSnapshot := []
      Status := 0
      Result := "" }
  match extentSnap with
  | Except.error e => { response with Status := TaskFail, Result := e }
  | Except.ok extentBytes =>
    let response := { response with PartitionSnapshot := extentBytes }
    match blobSnap with
    | Except.error e => { response with Status := TaskFail, Result := e }
    | Except.ok blobBytes =>
      { response with PartitionSnapshot := extentBytes ++ blobBytes }

/-- `storage.Object` (needle reference). -/
structure Object where
  Oid : Nat
  Size : Nat
  deriving DecidableEq

/-- `2 ^ 64`: the modulus of Go's `uint64` oid arithmetic. -/
def U64 : Nat := 18446744073709551616

/-- The `for startOid <= lastOid` loop body of `GetObjects`, as a fueled
loop over `uint64` state: one iteration looks the oid up in the blob store
(an external collaborator), substitutes the marked-deleted placeholder on
a lookup error, appends, and increments the counter with 64-bit
wrap-around.  `none` means the fuel ran out before the loop exited. -/
def getObjectsLoop (store : Nat → Nat → Except String Object) (blobfileID : Nat) :
    Nat → Nat → Nat → List Object → Option (List Object)
  | 0, _, _, _ => none
  | fuel + 1, startOid, lastOid, objects =>
    if startOid ≤ lastOid then
      let needle :=
        match store blobfileID startOid with
        | Except.ok o => o
        | Except.error _ => { Oid := startOid, Size := MarkDeleteObject }
      getObjectsLoop store blobfileID fuel ((startOid + 1) % U64) lastOid
        (objects ++ [needle])
    else
      some objects

/-- `(*dataPartition).GetObjects`, run with fuel covering the claimed
iteration count plus the exit test; `getObjectsLoop_diverges_at_max`
below shows that when the fuel does not suffice no fuel does, so `none`
faithfully reports a non-terminating source loop. -/
def GetObjects (store : Nat → Nat → Except String Object) (blobfileID : Nat)
    (startOid lastOid : Nat) : Option (List Object) :=
  getObjectsLoop store blobfileID (lastOid + 2 - startOid) startOid lastOid []

/-- The needle `GetObjects` produces for one oid: the blob store's object
on a successful lookup, the synthetic marked-deleted placeholder
otherwise.  This is the loop body's `match` factored out for
specification. -/
def needleFor (store : Nat → Nat → Except String Object) (blobfileID oid : Nat) :
    Object :=
  match store blobfileID oid with
  | Except.ok o => o
  | Except.error _ => { Oid := oid, Size := MarkDeleteObject }

/-- The dense needle sequence of length `n` starting at oid `s`. -/
def denseObjects (store : Nat → Nat → Except String Object) (blobfileID : Nat) :
    Nat → Nat → List Object
  | _, 0 => []
  | s, n + 1 => needleFor store blobfileID s :: denseObjects store blobfileID (s + 1) n

/-- Error discrimination for `DelObjects`: the buffer-format error versus
an error propagated from the blob store's batch delete. -/
inductive DelError where
  | formatError : DelError
  | storeError : String → DelError
  deriving DecidableEq

/-- Go `binary.BigEndian.Uint64` over one 8-byte chunk. -/
def bigEndian64 (bytes : List Nat) : Nat :=
  bytes.foldl (fun acc b => acc * 256 + b) 0

/-- Split a byte buffer into consecutive 8-byte chunks, dropping a
trailing fragment (the caller has already rejected ragged lengths). -/
def chunk8 : List Nat → List (List Nat)
  | b0 :: b1 :: b2 :: b3 :: b4 :: b5 :: b6 :: b7 :: rest =>
    [b0, b1, b2, b3, b4, b5, b6, b7] :: chunk8 rest
  | _ => []

/-- The needle decode loop of `DelObjects`: `len/8` fixed-width big-endian
object ids in encoded order. -/
def decodeNeedles (deleteBuf : List Nat) : List Nat :=
  (chunk8 deleteBuf).map bigEndian64

/-- Observable result of `DelObjects`: the error, and the batch actually
handed to the blob store's `ApplyDelObjects` (`none` when the store was
never touched). -/
structure DelObjectsResult where
  err : Option DelError
  applied : Option (Nat × List Nat)
  deriving DecidableEq

/-- `(*dataPartition).DelObjects`: reject a buffer whose length is not a
multiple of `ObjectIdLen` before touching the store; otherwise decode the
needles and apply them as one batch delete (whose outcome is the external
`applyResult`). -/
def DelObjects (applyResult : Except String Unit) (blobfileId : Nat)
    (deleteBuf : List Nat) : DelObjectsResult :=
  if deleteBuf.length % ObjectIdLen ≠ 0 then
    { err := some DelError.formatError, applied := none }
  else
    let needles := decodeNeedles deleteBuf
    match applyResult with
    | Except.error e =>
      { err := some (DelError.storeError e), applied := some (blobfileId, needles) }
    | Except.ok _ => { err := none, applied := some (blobfileId, needles) }

/-- `storage.FileInfo`. -/
structure FileInfo where
  FileId : Nat
  Inode : Nat
  Size : Nat
  Source : String
  deriving DecidableEq

/-- `MembersFileMetas`: the transient repair-task bundle. -/
structure MembersFileMetas where
  NeedAddExtentsTasks : List FileInfo
  NeedDeleteExtentsTasks : List FileInfo
  NeedFixExtentSizeTasks : List FileInfo
  NeedFixBlobFileSizeTasks : List FileInfo
  NeedDeleteObjectsTasks : List (Nat × List Nat)
  deriving DecidableEq

/-- Modelled from the spec: the extent store's observable state for the
repair merger — which extent file ids exist, and which are marked
deleted (`MarkDelete` records a deletion mark; it does not unlink the
extent). -/
structure ExtentStoreState where
  extents : List Nat
  deleted : List Nat
  deriving DecidableEq

/-- Modelled from the spec: `ExtentStore.IsExistExtent`. -/
def IsExistExtent (s : ExtentStoreState) (fileId : Nat) : Bool :=
  s.extents.contains fileId

/-- Modelled from the spec: `ExtentStore.MarkDelete` (best-effort). -/
def MarkDelete (s : ExtentStoreState) (fileId : Nat) : ExtentStoreState :=
  { s with deleted := s.deleted ++ [fileId] }

/-- Modelled from the spec: `ExtentStore.Create` after a successful
creation. -/
def createExtent (s : ExtentStoreState) (fileId : Nat) : ExtentStoreState :=
  { s with extents := s.extents ++ [fileId] }

/-- The store operations a merge call performs, in order: deletion marks,
creation attempts, and dispatches of stream-resize repairs. -/
inductive RepairEvent where
  | markDelete (fileId : Nat) : RepairEvent
  | createAttempt (fileId : Nat) (ok : Bool) : RepairEvent
  | fixDispatch (fileId : Nat) (source : String) (size : Nat) : RepairEvent
  deriving DecidableEq

/-- The derived resize task built for a freshly created extent:
`&storage.FileInfo{Source: addExtent.Source, FileId: addExtent.FileId,
Size: addExtent.Size}` (the `Inode` field keeps its zero value). -/
def mkFixTask (t : FileInfo) : FileInfo :=
  { FileId := t.FileId, Inode := 0, Size := t.Size, Source := t.Source }

/-- The first loop of `MergeExtentStoreRepair`: mark every delete task
above the reserved blob-file id bound deleted. -/
def deletePhase (bound : Nat) :
    ExtentStoreState → List FileInfo → ExtentStoreState × List RepairEvent
  | store, [] => (store, [])
  | store, t :: rest =>
    if t.FileId ≤ bound then deletePhase bound store rest
    else
      let r := deletePhase bound (MarkDelete store t.FileId) rest
      (r.1, RepairEvent.markDelete t.FileId :: r.2)

/-- The second loop of `MergeExtentStoreRepair`: for every add task above
the bound whose extent does not yet exist, attempt creation (`createOk` is
the external creation outcome per file id); each successful creation
appends the derived resize task.  Returns the store, the derived resize
tasks in processing order, and the creation events. -/
def addPhase (bound : Nat) (createOk : Nat → Bool) :
    ExtentStoreState → List FileInfo →
      ExtentStoreState × List FileInfo × List RepairEvent
  | store, [] => (store, [], [])
  | store, t :: rest =>
    if t.FileId ≤ bound then addPhase bound createOk store rest
    else if IsExistExtent store t.FileId then addPhase bound createOk store rest
    else if createOk t.FileId then
      let r := addPhase bound createOk (createExtent store t.FileId) rest
      (r.1, mkFixTask t :: r.2.1, RepairEvent.createAttempt t.FileId true :: r.2.2)
    else
      let r := addPhase bound createOk store rest
      (r.1, r.2.1, RepairEvent.createAttempt t.FileId false :: r.2.2)

/-- The third loop of `MergeExtentStoreRepair`: dispatch a stream-resize
repair for every resize task above the bound whose extent exists.
Returns the dispatched tasks and the dispatch events. -/
def fixPhase (bound : Nat) (store : ExtentStoreState) :
    List FileInfo → List FileInfo × List RepairEvent
  | [] => ([], [])
  | t :: rest =>
    if t.FileId ≤ bound then fixPhase bound store rest
    else if !IsExistExtent store t.FileId then fixPhase bound store rest
    else
      let r := fixPhase bound store rest
      (t :: r.1, RepairEvent.fixDispatch t.FileId t.Source t.Size :: r.2)

/-- Observable result of one `MergeExtentStoreRepair` call. -/
structure MergeResult where
  store : ExtentStoreState
  dispatchedFixes : List FileInfo
  completedFixes : List FileInfo
  trace : List RepairEvent
  metasAfter : MembersFileMetas
  deriving DecidableEq

/-- `(*dataPartition).MergeExtentStoreRepair`: deletes, then adds (with
derived resize tasks appended to `NeedFixExtentSizeTasks`), then the
resize fan-out.  The fan-out's `WaitGroup` join — the call returns only
once every dispatched `doStreamExtentFixRepair` has completed — is
modelled by `completedFixes`, the set of repairs finished at return
time. -/
def MergeExtentStoreRepair (bound : Nat) (createOk : Nat → Bool)
    (store : ExtentStoreState) (metas : MembersFileMetas) : MergeResult :=
  let d := deletePhase bound store metas.NeedDeleteExtentsTasks
  let a := addPhase bound createOk d.1 metas.NeedAddExtentsTasks
  let allFixTasks := metas.NeedFixExtentSizeTasks ++ a.2.1
  let f := fixPhase bound a.1 allFixTasks
  { store := a.1
    dispatchedFixes := f.1
    completedFixes := f.1
    trace := d.2 ++ a.2.2 ++ f.2
    metasAfter := { metas with NeedFixExtentSizeTasks := allFixTasks } }

/-- The leadership rule as the specification words it, for comparison
with `fetchReplicaHosts`: "the host part of the list's first address
equals the node's own local address", reading the host part as everything
before the first colon (and the whole address when it has no colon). -/
def specHostPart (addr : String) : String :=
  (goSplit addr ':').headD ""

/-- See `specHostPart`: "true iff the list is non-empty and the host part
of its first address equals this node's own address". -/
def specIsLeader (localAddr : String) (hosts : List String) : Bool :=
  !hosts.isEmpty && specHostPart (hosts.headD "") = localAddr

/-- A concrete runtime partition used to instantiate theorems. -/
def samplePartition (replicaHosts : List String) (isLeader : Bool) : dataPartition :=
  { volumeId := "v"
    partitionId := 1
    partitionStatus := 2
    partitionSize := 10
    replicaHosts := replicaHosts
    isLeader := isLeader
    path := ""
    used := 0 }

/-- The meta record `CreateDataPartition` builds from its arguments. -/
def metaRecordOf (volId partitionType now : String) (pid : Nat) (size : Int) :
    dataPartitionMeta :=
  { VolumeId := volId
    PartitionType := partitionType
    PartitionId := pid
    PartitionSize := size
    CreateTime := now }

/-- A concrete meta record (id 1, size 7) used to instantiate theorems. -/
def sampleMeta (volumeId partitionType : String) : dataPartitionMeta :=
  { VolumeId := volumeId
    PartitionType := partitionType
    PartitionId := 1
    PartitionSize := 7
    CreateTime := "t" }

/-- A concrete disk used to instantiate theorems. -/
def sampleDisk : Disk :=
  { Path := "/d", Status := 2, attachedPartitions := [] }

/-- Store-binding initialization succeeding on both stores. -/
def storesOk : StoreInitEnv :=
  { extentStoreInit := Except.ok (), blobStoreInit := Except.ok () }

/-! ## Helper lemmas -/

theorem computeUsage_partitionSize (st : dataPartition) (dirFiles : Option (List Int)) :
    (computeUsage st dirFiles).partitionSize = st.partitionSize := by
  cases dirFiles <;> rfl

theorem Validate_fst (meta : dataPartitionMeta) :
    (Validate meta).1 = { meta with VolumeId := trimSpace meta.VolumeId,
                                    PartitionType := trimSpace meta.PartitionType } := by
  simp only [Validate]
  split <;> rfl

theorem Validate_snd_of_empty (meta : dataPartitionMeta)
    (h : trimSpace meta.VolumeId = "" ∨ trimSpace meta.PartitionType = "") :
    (Validate meta).2 = some "illegal data partition meta" := by
  simp only [Validate]
  rcases h with h | h <;> simp [h]

theorem newDataPartition_cases (v : String) (pid : Nat) (disk : Disk) (size : Int)
    (env : StoreInitEnv) :
    (newDataPartition v pid disk size env =
      ((some { volumeId := v, partitionId := pid,
               path := partitionPath disk.Path pid size, partitionSize := size,
               replicaHosts := [], partitionStatus := ReadWrite, isLeader := false,
               used := 0 }, none), AttachDataPartition disk pid)) ∨
    ((newDataPartition v pid disk size env).1.1 = none ∧
      (newDataPartition v pid disk size env).1.2.isSome ∧
      (newDataPartition v pid disk size env).2 = disk) := by
  rcases env with ⟨ei, bi⟩
  cases ei with
  | error e => right; simp [newDataPartition]
  | ok u =>
    cases bi with
    | error e => right; simp [newDataPartition]
    | ok u2 => left; rfl

theorem newDataPartition_volumeId (v : String) (pid : Nat) (disk : Disk) (size : Int)
    (env : StoreInitEnv) (p : dataPartition)
    (h : (newDataPartition v pid disk size env).1.1 = some p) : p.volumeId = v := by
  rcases newDataPartition_cases v pid disk size env with hc | hc
  · rw [hc] at h
    cases h
    rfl
  · rw [hc.1] at h
    cases h

theorem LoadDataPartition_validatedMeta (meta : dataPartitionMeta) (disk : Disk)
    (senv : StoreInitEnv) :
    (LoadDataPartition (some meta) disk senv).validatedMeta = some (Validate meta).1 := by
  simp only [LoadDataPartition]
  rcases hv : Validate meta with ⟨m, e⟩
  cases e <;> simp [hv]

theorem LoadDataPartition_dp_volumeId (meta : dataPartitionMeta) (disk : Disk)
    (senv : StoreInitEnv) (p : dataPartition)
    (h : (LoadDataPartition (some meta) disk senv).dp = some p) :
    p.volumeId = trimSpace meta.VolumeId := by
  rw [LoadDataPartition] at h
  rcases hv : Validate meta with ⟨m, e⟩
  rw [hv] at h
  cases e with
  | some err => simp at h
  | none =>
    simp only at h
    have hm : m = { meta with VolumeId := trimSpace meta.VolumeId,
                              PartitionType := trimSpace meta.PartitionType } := by
      have h2 := Validate_fst meta
      rw [hv] at h2
      exact h2
    have hvol : m.VolumeId = trimSpace meta.VolumeId := by rw [hm]
    rw [← hvol]
    exact newDataPartition_volumeId m.VolumeId m.PartitionId disk m.PartitionSize senv p h

theorem stringLengthEqZero (s : String) : s.length = 0 ↔ s = "" := by
  constructor
  · intro h
    cases s with
    | mk data =>
      cases data with
      | nil => rfl
      | cons c cs => simp [String.length] at h
  · intro h
    subst h
    rfl

theorem Validate_ok (meta : dataPartitionMeta)
    (h1 : trimSpace meta.VolumeId = meta.VolumeId)
    (h2 : trimSpace meta.PartitionType = meta.PartitionType)
    (h3 : meta.VolumeId ≠ "") (h4 : meta.PartitionType ≠ "")
    (h5 : meta.PartitionId ≠ 0) (h6 : meta.PartitionSize ≠ 0) :
    Validate meta = (meta, none) := by
  have hv : ¬ meta.VolumeId.length = 0 := fun h => h3 ((stringLengthEqZero _).1 h)
  have hp : ¬ meta.PartitionType.length = 0 := fun h =>
    h4 ((stringLengthEqZero _).1 h)
  simp only [Validate, h1, h2]
  simp [hv, hp, h5, h6]

theorem CreateDataPartition_ok (volId partitionType now : String) (pid : Nat)
    (size : Int) (disk : Disk) :
    CreateDataPartition volId pid disk size partitionType now storesOk
        { openOk := true, writeOk := true } =
      { dp := some { volumeId := volId
                     partitionId := pid
                     path := partitionPath disk.Path pid size
                     partitionSize := size
                     replicaHosts := []
                     partitionStatus := ReadWrite
                     isLeader := false
                     used := 0 }
        err := none
        disk := AttachDataPartition disk pid
        metaFile := some (metaRecordOf volId partitionType now pid size) } := rfl

/-! ## Claim theorems -/

/-- C5: on every status tick the resulting partition status is the
minimum of the usage-derived target (`ReadWrite` while `used < size`,
`ReadOnly` once `used ≥ size`) and the hosting disk's status, and a disk
reporting `Unavaliable` forces the partition status to `Unavaliable`
regardless of usage. -/
theorem c5_status_update_min (st : dataPartition) (diskStatus : Int)
    (dirFiles : Option (List Int)) :
    (statusUpdate st diskStatus dirFiles).partitionStatus =
      min (if (computeUsage st dirFiles).used ≥ st.partitionSize then ReadOnly
            else ReadWrite) diskStatus ∧
    (diskStatus = Unavaliable →
      (statusUpdate st diskStatus dirFiles).partitionStatus = Unavaliable) := by
  have hs : (statusUpdate st diskStatus dirFiles).partitionStatus =
      min (if (computeUsage st dirFiles).used ≥ st.partitionSize then ReadOnly
            else ReadWrite) diskStatus := by
    simp only [statusUpdate, computeUsage_partitionSize]
  refine ⟨hs, fun h => ?_⟩
  rw [hs, h]
  split <;> decide

/-- C5 witness: a partition with `used = 11 ≥ size = 10` on a disk
reporting `Unavaliable` ends `Unavaliable`. -/
theorem c5_status_update_min_witness :
    (statusUpdate (samplePartition [] false) (-1) (some [5, 6])).partitionStatus =
      Unavaliable :=
  (c5_status_update_min (samplePartition [] false) (-1) (some [5, 6])).2 (by decide)

/-- C6: when the membership query (request or decode) fails,
`updateReplicaHosts` leaves `isLeader = false`, keeps the stored
`replicaHosts` list exactly as it was, and returns the error. -/
theorem c6_update_replica_hosts_failure (st : dataPartition) (localIP e : String)
    (requestResult : Except String (Except String MasterDataPartition))
    (h : requestResult = Except.error e ∨ requestResult = Except.ok (Except.error e)) :
    (updateReplicaHosts st localIP requestResult).1.isLeader = false ∧
    (updateReplicaHosts st localIP requestResult).1.replicaHosts = st.replicaHosts ∧
    (updateReplicaHosts st localIP requestResult).2 = some e := by
  rcases h with h | h <;> subst h <;>
    simp [updateReplicaHosts, fetchReplicaHosts]

/-- C6 witness: a failed request against a partition that currently
believes it is the leader of `["a:1"]`. -/
theorem c6_update_replica_hosts_failure_witness :
    (updateReplicaHosts (samplePartition ["a:1"] true) "10.0.0.1"
      (Except.error "master unreachable")).1.replicaHosts = ["a:1"] :=
  (c6_update_replica_hosts_failure (samplePartition ["a:1"] true) "10.0.0.1"
    "master unreachable" (Except.error "master unreachable") (Or.inl rfl)).2.1

/-- C10: meta validation trims `VolumeId` and `PartitionType` in place; a
record whose `VolumeId` or `PartitionType` trims to empty is rejected as
empty; and a partition loaded from a whitespace-padded meta file observes
the trimmed values (both in the validated record and in the loaded
partition's `volumeId`). -/
theorem c10_validate_trims (meta : dataPartitionMeta) (disk : Disk)
    (senv : StoreInitEnv) :
    ((Validate meta).1.VolumeId = trimSpace meta.VolumeId ∧
      (Validate meta).1.PartitionType = trimSpace meta.PartitionType) ∧
    ((trimSpace meta.VolumeId = "" ∨ trimSpace meta.PartitionType = "") →
      (Validate meta).2 = some "illegal data partition meta") ∧
    (∀ p, (LoadDataPartition (some meta) disk senv).dp = some p →
      p.volumeId = trimSpace meta.VolumeId) ∧
    (LoadDataPartition (some meta) disk senv).validatedMeta =
      some (Validate meta).1 := by
  refine ⟨⟨?_, ?_⟩, Validate_snd_of_empty meta,
    fun p hp => LoadDataPartition_dp_volumeId meta disk senv p hp,
    LoadDataPartition_validatedMeta meta disk senv⟩
  · rw [Validate_fst]
  · rw [Validate_fst]

/-- C10 witness: a record whose `PartitionType` is whitespace-only is
rejected. -/
theorem c10_validate_trims_witness :
    (Validate (sampleMeta " vol " " ")).2 = some "illegal data partition meta" :=
  ((c10_validate_trims (sampleMeta " vol " " ") sampleDisk storesOk).2.1
    (Or.inr (by decide)))

/-- C1 counterexample: when the extent snapshot succeeds with bytes
`[7, 8]` and the blob snapshot fails, the response carries the failure
status and the error text but still holds the partial extent snapshot
bytes — refuting "the response never contains partial snapshot bytes". -/
theorem c1_counterexample :
    (dataPartition.Load (samplePartition [] false) (Except.ok [7, 8])
        (Except.error "blob snapshot failed")).Status = TaskFail ∧
    (dataPartition.Load (samplePartition [] false) (Except.ok [7, 8])
        (Except.error "blob snapshot failed")).Result = "blob snapshot failed" ∧
    (dataPartition.Load (samplePartition [] false) (Except.ok [7, 8])
        (Except.error "blob snapshot failed")).PartitionSnapshot = [7, 8] :=
  ⟨rfl, rfl, rfl⟩

/-- C1 (amended): a failed extent snapshot yields the failure status, the
error text and no snapshot bytes; a failed blob snapshot yields the
failure status and the error text but retains the already-obtained extent
snapshot bytes; when both succeed the snapshot is the concatenation and
the status stays at its zero value. -/
theorem c1_snapshot_failure_reporting (st : dataPartition)
    (extentSnap blobSnap : Except String (List Nat)) :
    (∀ e, extentSnap = Except.error e →
      (dataPartition.Load st extentSnap blobSnap).Status = TaskFail ∧
      (dataPartition.Load st extentSnap blobSnap).Result = e ∧
      (dataPartition.Load st extentSnap blobSnap).PartitionSnapshot = []) ∧
    (∀ bs e, extentSnap = Except.ok bs → blobSnap = Except.error e →
      (dataPartition.Load st extentSnap blobSnap).Status = TaskFail ∧
      (dataPartition.Load st extentSnap blobSnap).Result = e ∧
      (dataPartition.Load st extentSnap blobSnap).PartitionSnapshot = bs) ∧
    (∀ bs bb, extentSnap = Except.ok bs → blobSnap = Except.ok bb →
      (dataPartition.Load st extentSnap blobSnap).Status = 0 ∧
      (dataPartition.Load st extentSnap blobSnap).PartitionSnapshot = bs ++ bb) := by
  refine ⟨fun e he => ?_, fun bs e he hb => ?_, fun bs bb he hb => ?_⟩ <;>
    subst he <;> first
      | exact ⟨rfl, rfl, rfl⟩
      | (subst hb; exact ⟨rfl, rfl, rfl⟩)
      | (subst hb; exact ⟨rfl, rfl⟩)

/-- C1 witness: a failed extent snapshot on a concrete partition. -/
theorem c1_snapshot_failure_reporting_witness :
    (dataPartition.Load (samplePartition [] false)
      (Except.error "extent snapshot failed") (Except.ok [1])).Result =
      "extent snapshot failed" :=
  ((c1_snapshot_failure_reporting (samplePartition [] false)
      (Except.error "extent snapshot failed") (Except.ok [1])).1
    "extent snapshot failed" rfl).2.1

/-- C3 counterexample: for the successfully fetched single-host list
`["10.0.0.1"]` and local address `10.0.0.1`, the spec's rule ("list
non-empty and host part of its first address equals the local address")
yields `true`, but `fetchReplicaHosts` computes `false`, because the code
additionally requires the address to split on `:` into exactly two
parts. -/
theorem c3_counterexample :
    specIsLeader "10.0.0.1" ["10.0.0.1"] = true ∧
    fetchReplicaHosts "10.0.0.1"
        (Except.ok (Except.ok { PersistenceHosts := some ["10.0.0.1"] })) =
      (false, some ["10.0.0.1"], none) :=
  ⟨rfl, rfl⟩

/-- C3 (amended): for every successful membership query, `isLeader` is
true iff the returned list is non-empty and its first address splits on
`:` into exactly two parts whose first part, whitespace-trimmed, equals
the node's local address; the returned host list is the response's list
(empty when the response field is nil) and no error is reported. -/
theorem c3_leader_determination (localIP : String) (response : MasterDataPartition) :
    ((fetchReplicaHosts localIP (Except.ok (Except.ok response))).1 = true ↔
      ∃ leaderAddr rest,
        (fetchReplicaHosts localIP (Except.ok (Except.ok response))).2.1 =
          some (leaderAddr :: rest) ∧
        (goSplit leaderAddr ':').length = 2 ∧
        trimSpace ((goSplit leaderAddr ':').headD "") = localIP) ∧
    (fetchReplicaHosts localIP (Except.ok (Except.ok response))).2.1 =
      some (response.PersistenceHosts.getD []) ∧
    (fetchReplicaHosts localIP (Except.ok (Except.ok response))).2.2 = none := by
  rcases response with ⟨hosts⟩
  cases hosts with
  | none =>
    refine ⟨⟨fun h => ?_, fun h => ?_⟩, rfl, rfl⟩
    · exact absurd h (by simp [fetchReplicaHosts])
    · rcases h with ⟨l, r, h, _⟩
      simp [fetchReplicaHosts] at h
  | some hs =>
    cases hs with
    | nil =>
      refine ⟨⟨fun h => ?_, fun h => ?_⟩, rfl, rfl⟩
      · exact absurd h (by simp [fetchReplicaHosts])
      · rcases h with ⟨l, r, h, _⟩
        simp [fetchReplicaHosts] at h
    | cons leaderAddr rest =>
      refine ⟨⟨fun h => ?_, fun h => ?_⟩, rfl, rfl⟩
      · refine ⟨leaderAddr, rest, rfl, ?_, ?_⟩
        · have h2 := h
          simp only [fetchReplicaHosts, Bool.and_eq_true, decide_eq_true_eq] at h2
          exact h2.1
        · have h2 := h
          simp only [fetchReplicaHosts, Bool.and_eq_true, decide_eq_true_eq] at h2
          exact h2.2
      · rcases h with ⟨l, r, hl, h2, h3⟩
        simp only [fetchReplicaHosts, Option.some.injEq, List.cons.injEq] at hl
        rcases hl with ⟨rfl, rfl⟩
        simp only [fetchReplicaHosts, Bool.and_eq_true, decide_eq_true_eq]
        exact ⟨h2, h3⟩

/-- C3 witness: the spec's own example — local address `10.0.0.1` with
list `["10.0.0.1:6000", "10.0.0.2:6000"]` is the leader. -/
theorem c3_leader_determination_witness :
    (fetchReplicaHosts "10.0.0.1"
      (Except.ok (Except.ok
        { PersistenceHosts := some ["10.0.0.1:6000", "10.0.0.2:6000"] }))).1 = true :=
  (c3_leader_determination "10.0.0.1"
      { PersistenceHosts := some ["10.0.0.1:6000", "10.0.0.2:6000"] }).1.mpr
    ⟨"10.0.0.1:6000", ["10.0.0.2:6000"], rfl, by decide, by decide⟩

/-- C2 counterexample: with both stores initializing fine but the META
file failing to open, `CreateDataPartition` returns an error — yet the
partition has already been attached to the disk and is returned alongside
the error, refuting "no partition is returned and no partition has been
attached". -/
theorem c2_counterexample :
    (CreateDataPartition "v" 1 sampleDisk 100 "extent" "2018-01-01 00:00:00"
        storesOk { openOk := false, writeOk := true }).err.isSome = true ∧
    (CreateDataPartition "v" 1 sampleDisk 100 "extent" "2018-01-01 00:00:00"
        storesOk { openOk := false, writeOk := true }).dp.isSome = true ∧
    (CreateDataPartition "v" 1 sampleDisk 100 "extent" "2018-01-01 00:00:00"
        storesOk { openOk := false, writeOk := true }).disk.attachedPartitions =
      [1] :=
  ⟨rfl, rfl, rfl⟩

/-- C2 (amended): a store-binding init failure makes `CreateDataPartition`
fail atomically (no partition returned, disk unchanged), and every
`LoadDataPartition` failure is atomic; but a META-file create/write
failure after successful runtime construction returns the error together
with the constructed partition, which remains attached to the Disk. -/
theorem c2_construction_atomicity (volId partitionType now : String)
    (pid : Nat) (disk : Disk) (size : Int) (senv : StoreInitEnv)
    (fenv : MetaFileEnv) (metaData : Option dataPartitionMeta) :
    ((newDataPartition volId pid disk size senv).1.1 = none →
      (CreateDataPartition volId pid disk size partitionType now senv fenv).dp =
        none ∧
      (CreateDataPartition volId pid disk size partitionType now senv fenv).disk =
        disk ∧
      (CreateDataPartition volId pid disk size partitionType now
        senv fenv).err.isSome = true) ∧
    ((LoadDataPartition metaData disk senv).err.isSome = true →
      (LoadDataPartition metaData disk senv).dp = none ∧
      (LoadDataPartition metaData disk senv).disk = disk) ∧
    (∀ p, (newDataPartition volId pid disk size senv).1.1 = some p →
      (!fenv.openOk || !fenv.writeOk) = true →
      (CreateDataPartition volId pid disk size partitionType now
        senv fenv).err.isSome = true ∧
      (CreateDataPartition volId pid disk size partitionType now senv fenv).dp =
        some p ∧
      (CreateDataPartition volId pid disk size partitionType now senv fenv).disk =
        AttachDataPartition disk pid) := by
  refine ⟨fun hn => ?_, fun hl => ?_, fun p hp hf => ?_⟩
  · rcases newDataPartition_cases volId pid disk size senv with hc | hc
    · rw [hc] at hn
      cases hn
    · rcases hc with ⟨h1, h2, h3⟩
      simp only [CreateDataPartition]
      rcases hnd : newDataPartition volId pid disk size senv with ⟨⟨dp?, e?⟩, disk'⟩
      rw [hnd] at h1 h2 h3
      simp only at h1 h2 h3
      subst h1 h3
      exact ⟨rfl, rfl, h2⟩
  · cases metaData with
    | none => exact ⟨rfl, rfl⟩
    | some meta =>
      simp only [LoadDataPartition] at hl ⊢
      rcases hv : Validate meta with ⟨m, e⟩
      cases e with
      | some err => exact ⟨rfl, rfl⟩
      | none =>
        rw [hv] at hl
        simp only at hl ⊢
        rcases newDataPartition_cases m.VolumeId m.PartitionId disk
            m.PartitionSize senv with hc | hc
        · rw [hc] at hl
          simp at hl
        · exact ⟨hc.1, hc.2.2⟩
  · rcases newDataPartition_cases volId pid disk size senv with hc | hc
    · simp only [CreateDataPartition, hc]
      rw [hc] at hp
      simp only [Option.some.injEq] at hp
      subst hp
      rcases fenv with ⟨o, w⟩
      cases o <;> cases w <;> simp_all
    · rw [hc.1] at hp
      cases hp

/-- C2 witness: a blob-store init failure leaves the sample disk without
any attached partition. -/
theorem c2_construction_atomicity_witness :
    (CreateDataPartition "v" 1 sampleDisk 100 "extent" "2018-01-01 00:00:00"
      { extentStoreInit := Except.ok (), blobStoreInit := Except.error "bad path" }
      { openOk := true, writeOk := true }).disk = sampleDisk :=
  ((c2_construction_atomicity "v" "extent" "2018-01-01 00:00:00" 1 sampleDisk 100
      { extentStoreInit := Except.ok (), blobStoreInit := Except.error "bad path" }
      { openOk := true, writeOk := true } none).1 rfl).2.1

/-- C7 counterexample: creating with `volumeId = "v "` (trailing space,
non-empty) succeeds, but loading the written meta file yields the trimmed
volume id `"v"` (in the validated record and in the loaded partition),
not `"v "` — the round-trip is not exact. -/
theorem c7_counterexample :
    (CreateDataPartition "v " 1 sampleDisk 100 "t" "2018-01-01 00:00:00" storesOk
        { openOk := true, writeOk := true }).err = none ∧
    ((LoadDataPartition
        (CreateDataPartition "v " 1 sampleDisk 100 "t" "2018-01-01 00:00:00"
          storesOk { openOk := true, writeOk := true }).metaFile sampleDisk
        storesOk).validatedMeta.map dataPartitionMeta.VolumeId = some "v") ∧
    ((LoadDataPartition
        (CreateDataPartition "v " 1 sampleDisk 100 "t" "2018-01-01 00:00:00"
          storesOk { openOk := true, writeOk := true }).metaFile sampleDisk
        storesOk).dp.map dataPartition.volumeId = some "v") ∧
    ¬ (("v" : String) = "v ") := by
  refine ⟨rfl, ?_, ?_, by decide⟩ <;> decide

/-- C7 (amended): for volumeId and partitionType that are non-empty and
free of leading/trailing whitespace (fixed points of trimming), and
non-zero partitionId and size, create → load round-trips the meta record
exactly: creation succeeds, the written record carries the creation
arguments verbatim, and loading that record validates it unchanged and
constructs a partition with the same volumeId, partitionId and size. -/
theorem c7_create_load_roundtrip (volId partitionType now : String) (pid : Nat)
    (size : Int) (diskA diskB : Disk) (senvB : StoreInitEnv)
    (h1 : trimSpace volId = volId) (h2 : trimSpace partitionType = partitionType)
    (h3 : volId ≠ "") (h4 : partitionType ≠ "") (h5 : pid ≠ 0) (h6 : size ≠ 0) :
    (CreateDataPartition volId pid diskA size partitionType now storesOk
        { openOk := true, writeOk := true }).err = none ∧
    (CreateDataPartition volId pid diskA size partitionType now storesOk
        { openOk := true, writeOk := true }).metaFile =
      some (metaRecordOf volId partitionType now pid size) ∧
    (LoadDataPartition (some (metaRecordOf volId partitionType now pid size))
        diskB senvB).validatedMeta =
      some (metaRecordOf volId partitionType now pid size) ∧
    (∀ p,
      (LoadDataPartition (some (metaRecordOf volId partitionType now pid size))
          diskB senvB).dp = some p →
      p.volumeId = volId ∧ p.partitionId = pid ∧ p.partitionSize = size) := by
  have hval : Validate (metaRecordOf volId partitionType now pid size) =
      (metaRecordOf volId partitionType now pid size, none) :=
    Validate_ok _ h1 h2 h3 h4 h5 h6
  refine ⟨?_, ?_, ?_, ?_⟩
  · rw [CreateDataPartition_ok]
  · rw [CreateDataPartition_ok]
  · simp [LoadDataPartition, hval]
  · intro p hp
    simp only [LoadDataPartition, hval] at hp
    rcases newDataPartition_cases (metaRecordOf volId partitionType now pid size).VolumeId
        (metaRecordOf volId partitionType now pid size).PartitionId diskB
        (metaRecordOf volId partitionType now pid size).PartitionSize senvB with
      hc | hc
    · rw [hc] at hp
      simp only [Option.some.injEq] at hp
      subst hp
      exact ⟨rfl, rfl, rfl⟩
    · rw [hc.1] at hp
      cases hp

/-- C7 witness: a clean round-trip at `("vol", "extent", id 5, size 3)`. -/
theorem c7_create_load_roundtrip_witness :
    (LoadDataPartition (some (metaRecordOf "vol" "extent" "t0" 5 3)) sampleDisk
      storesOk).validatedMeta = some (metaRecordOf "vol" "extent" "t0" 5 3) :=
  (c7_create_load_roundtrip "vol" "extent" "t0" 5 3 sampleDisk sampleDisk storesOk
    (by decide) (by decide) (by decide) (by decide) (by decide) (by decide)).2.2.1

theorem drop_eight_cons (i : Nat) (b0 b1 b2 b3 b4 b5 b6 b7 : Nat)
    (rest : List Nat) :
    List.drop (8 * (i + 1))
        (b0 :: b1 :: b2 :: b3 :: b4 :: b5 :: b6 :: b7 :: rest) =
      List.drop (8 * i) rest := by
  have h8 : List.drop 8 (b0 :: b1 :: b2 :: b3 :: b4 :: b5 :: b6 :: b7 :: rest) =
      rest := rfl
  rw [show 8 * (i + 1) = 8 + 8 * i by ring, ← List.drop_drop, h8]

theorem decodeNeedles_eq (n : Nat) : ∀ buf : List Nat, buf.length = 8 * n →
    decodeNeedles buf =
      (List.range n).map (fun i => bigEndian64 ((buf.drop (8 * i)).take 8)) := by
  induction n with
  | zero =>
    intro buf h
    cases buf with
    | nil => rfl
    | cons a t => simp at h
  | succ k ih =>
    intro buf h
    cases buf with
    | nil => simp at h
    | cons b0 t0 =>
    cases t0 with
    | nil => simp at h; omega
    | cons b1 t1 =>
    cases t1 with
    | nil => simp at h; omega
    | cons b2 t2 =>
    cases t2 with
    | nil => simp at h; omega
    | cons b3 t3 =>
    cases t3 with
    | nil => simp at h; omega
    | cons b4 t4 =>
    cases t4 with
    | nil => simp at h; omega
    | cons b5 t5 =>
    cases t5 with
    | nil => simp at h; omega
    | cons b6 t6 =>
    cases t6 with
    | nil => simp at h; omega
    | cons b7 rest =>
    have hrest : rest.length = 8 * k := by
      simp [List.length] at h
      omega
    have hih := ih rest hrest
    rw [List.range_succ_eq_map]
    simp only [decodeNeedles, chunk8, List.map_cons, List.map_map]
    refine List.cons_eq_cons.mpr ⟨rfl, ?_⟩
    rw [show decodeNeedles rest = (chunk8 rest).map bigEndian64 from rfl] at hih
    rw [hih]
    refine List.map_congr_left fun i hi => ?_
    simp only [Function.comp]
    rw [show Nat.succ i = i + 1 from rfl, drop_eight_cons]

/-- C9: `DelObjects` fails with the format error iff the buffer length is
not a multiple of the 8-byte id width, in which case the blob store is
never touched; a valid buffer is decoded into `len / 8` fixed-width
big-endian ids in encoded order and handed to the store as one batch. -/
theorem c9_del_objects_format (applyResult : Except String Unit) (blobfileId : Nat)
    (deleteBuf : List Nat) :
    ((DelObjects applyResult blobfileId deleteBuf).err = some DelError.formatError ↔
      deleteBuf.length % ObjectIdLen ≠ 0) ∧
    (deleteBuf.length % ObjectIdLen ≠ 0 →
      (DelObjects applyResult blobfileId deleteBuf).applied = none) ∧
    (deleteBuf.length % ObjectIdLen = 0 →
      (DelObjects applyResult blobfileId deleteBuf).applied =
        some (blobfileId, decodeNeedles deleteBuf) ∧
      decodeNeedles deleteBuf =
        (List.range (deleteBuf.length / ObjectIdLen)).map
          (fun i => bigEndian64 ((deleteBuf.drop (ObjectIdLen * i)).take ObjectIdLen)) ∧
      (decodeNeedles deleteBuf).length = deleteBuf.length / ObjectIdLen) := by
  simp only [ObjectIdLen]
  by_cases hm : deleteBuf.length % 8 = 0
  · have heq := decodeNeedles_eq (deleteBuf.length / 8) deleteBuf (by omega)
    refine ⟨?_, fun hne => absurd hm hne, fun _ => ⟨?_, heq, ?_⟩⟩
    · cases applyResult <;> simp [DelObjects, ObjectIdLen, hm]
    · cases applyResult <;> simp [DelObjects, ObjectIdLen, hm]
    · rw [heq]
      simp
  · refine ⟨?_, fun _ => ?_, fun hz => absurd hz hm⟩
    · simp [DelObjects, ObjectIdLen, hm]
    · simp [DelObjects, ObjectIdLen, hm]

/-- C9 witness: a 3-byte buffer is rejected with the format error; the
16-byte buffer `00..01 ++ 00..01 00` decodes to exactly the two ids
`[1, 256]` in encoded order. -/
theorem c9_del_objects_format_witness :
    (DelObjects (Except.ok ()) 3 [1, 2, 3]).err = some DelError.formatError ∧
    (DelObjects (Except.ok ()) 3
        [0, 0, 0, 0, 0, 0, 0, 1, 0, 0, 0, 0, 0, 0, 1, 0]).applied =
      some (3, [1, 256]) ∧
    (decodeNeedles [0, 0, 0, 0, 0, 0, 0, 1, 0, 0, 0, 0, 0, 0, 1, 0]).length = 2 := by
  refine ⟨(c9_del_objects_format (Except.ok ()) 3 [1, 2, 3]).1.mpr (by decide),
    ?_, ?_⟩
  · have h := ((c9_del_objects_format (Except.ok ()) 3
      [0, 0, 0, 0, 0, 0, 0, 1, 0, 0, 0, 0, 0, 0, 1, 0]).2.2 (by decide)).1
    rw [h]
    decide
  · have h := ((c9_del_objects_format (Except.ok ()) 3
      [0, 0, 0, 0, 0, 0, 0, 1, 0, 0, 0, 0, 0, 0, 1, 0]).2.2 (by decide)).2.2
    rw [h]
    decide

theorem getObjectsLoop_spec (store : Nat → Nat → Except String Object) (bf : Nat) :
    ∀ (n fuel s l : Nat) (acc : List Object), l + 1 = s + n → s + n < U64 →
      n + 1 ≤ fuel →
      getObjectsLoop store bf fuel s l acc =
        some (acc ++ denseObjects store bf s n) := by
  intro n
  induction n with
  | zero =>
    intro fuel s l acc h1 h2 h3
    cases fuel with
    | zero => omega
    | succ f =>
      have hs : ¬ s ≤ l := by omega
      simp [getObjectsLoop, hs, denseObjects]
  | succ k ih =>
    intro fuel s l acc h1 h2 h3
    cases fuel with
    | zero => omega
    | succ f =>
      have hs : s ≤ l := by omega
      have hmod : (s + 1) % U64 = s + 1 := Nat.mod_eq_of_lt (by omega)
      simp only [getObjectsLoop]
      rw [if_pos hs, hmod]
      show getObjectsLoop store bf f (s + 1) l (acc ++ [needleFor store bf s]) =
        some (acc ++ denseObjects store bf s (k + 1))
      rw [ih f (s + 1) l (acc ++ [needleFor store bf s]) (by omega) (by omega)
        (by omega)]
      simp [denseObjects]

theorem getObjectsLoop_diverges_at_max (store : Nat → Nat → Except String Object)
    (bf : Nat) :
    ∀ (fuel s : Nat) (acc : List Object), s < U64 →
      getObjectsLoop store bf fuel s (U64 - 1) acc = none := by
  intro fuel
  induction fuel with
  | zero =>
    intro s acc h
    rfl
  | succ f ih =>
    intro s acc h
    have hs : s ≤ U64 - 1 := by omega
    simp only [getObjectsLoop]
    rw [if_pos hs]
    exact ih _ _ (Nat.mod_lt _ (by norm_num [U64]))

theorem denseObjects_eq_map (store : Nat → Nat → Except String Object) (bf : Nat) :
    ∀ (n s : Nat), denseObjects store bf s n =
      (List.range n).map (fun i => needleFor store bf (s + i)) := by
  intro n
  induction n with
  | zero =>
    intro s
    rfl
  | succ k ih =>
    intro s
    rw [List.range_succ_eq_map]
    simp only [denseObjects, List.map_cons, List.map_map, ih (s + 1)]
    refine List.cons_eq_cons.mpr ⟨by rw [Nat.add_zero], ?_⟩
    refine List.map_congr_left fun i hi => ?_
    simp only [Function.comp]
    rw [show s + 1 + i = s + Nat.succ i by omega]

theorem denseObjects_length (store : Nat → Nat → Except String Object) (bf : Nat) :
    ∀ (n s : Nat), (denseObjects store bf s n).length = n := by
  intro n
  induction n with
  | zero => intro s; rfl
  | succ k ih => intro s; simp [denseObjects, ih (s + 1)]

theorem denseObjects_get (store : Nat → Nat → Except String Object) (bf : Nat) :
    ∀ (n s i : Nat) (h : i < (denseObjects store bf s n).length),
      (denseObjects store bf s n).get ⟨i, h⟩ = needleFor store bf (s + i) := by
  intro n
  induction n with
  | zero =>
    intro s i h
    simp [denseObjects] at h
  | succ k ih =>
    intro s i h
    cases i with
    | zero =>
      show needleFor store bf s = needleFor store bf (s + 0)
      rw [Nat.add_zero]
    | succ j =>
      have hlen : j < (denseObjects store bf (s + 1) k).length := by
        rw [denseObjects_length]
        rw [denseObjects_length] at h
        omega
      show (denseObjects store bf (s + 1) k).get ⟨j, hlen⟩ =
        needleFor store bf (s + (j + 1))
      rw [ih (s + 1) j hlen]
      congr 1
      omega

/-- C8 counterexample: at `startOid = 0 ≤ lastOid = 2^64 - 1` the source
loop never terminates — incrementing the `uint64` counter past `lastOid`
wraps to `0`, so `startOid <= lastOid` stays true forever — and the
embedded loop accordingly yields no result even with fuel exceeding the
claimed iteration count (`getObjectsLoop_diverges_at_max` shows no fuel
suffices), refuting "returns exactly `lastOid - startOid + 1` object
references" for every pair `startOid ≤ lastOid`. -/
theorem c8_counterexample :
    GetObjects (fun _ _ => Except.error "no object") 1 0 (U64 - 1) = none :=
  getObjectsLoop_diverges_at_max (fun _ _ => Except.error "no object") 1
    (U64 - 1 + 2 - 0) 0 [] (by norm_num [U64])

/-- C8 (amended): for every `startOid ≤ lastOid` with
`lastOid < 2^64 - 1`, `GetObjects` returns exactly
`lastOid - startOid + 1` object references, the one at position `i` being
the store's object for oid `startOid + i` and, when that lookup fails, the
synthetic marked-deleted placeholder carrying that oid; at
`lastOid = 2^64 - 1` the loop never terminates. -/
theorem c8_get_objects_dense (store : Nat → Nat → Except String Object)
    (blobfileID startOid lastOid : Nat) (h1 : startOid ≤ lastOid)
    (h2 : lastOid < U64 - 1) :
    ∃ objs, GetObjects store blobfileID startOid lastOid = some objs ∧
      objs.length = lastOid - startOid + 1 ∧
      (∀ i, ∀ h : i < objs.length,
        objs.get ⟨i, h⟩ = needleFor store blobfileID (startOid + i)) ∧
      (∀ i, ∀ h : i < objs.length, ∀ e,
        store blobfileID (startOid + i) = Except.error e →
        objs.get ⟨i, h⟩ =
          { Oid := startOid + i, Size := MarkDeleteObject }) := by
  have hloop := getObjectsLoop_spec store blobfileID (lastOid - startOid + 1)
    (lastOid + 2 - startOid) startOid lastOid [] (by omega) (by omega) (by omega)
  refine ⟨denseObjects store blobfileID startOid (lastOid - startOid + 1),
    ?_, ?_, ?_, ?_⟩
  · rw [GetObjects, hloop]
    simp
  · rw [denseObjects_length]
  · intro i h
    exact denseObjects_get store blobfileID _ _ i h
  · intro i h e he
    rw [denseObjects_get store blobfileID _ _ i h]
    simp [needleFor, he]

/-- C8 witness: the spec's example `GetObjects(blobfileId, 5, 8)` against
an empty blob store yields four placeholders for oids 5, 6, 7, 8. -/
theorem c8_get_objects_dense_witness :
    ∃ objs, GetObjects (fun _ _ => Except.error "x") 1 5 8 = some objs ∧
      objs.length = 8 - 5 + 1 ∧
      (∀ i, ∀ h : i < objs.length,
        objs.get ⟨i, h⟩ = needleFor (fun _ _ => Except.error "x") 1 (5 + i)) ∧
      (∀ i, ∀ h : i < objs.length, ∀ e,
        (fun _ _ => Except.error "x" : Nat → Nat → Except String Object) 1 (5 + i) =
          Except.error e →
        objs.get ⟨i, h⟩ = { Oid := 5 + i, Size := MarkDeleteObject }) :=
  c8_get_objects_dense (fun _ _ => Except.error "x") 1 5 8 (by decide) (by decide)

theorem IsExistExtent_createExtent (store : ExtentStoreState) (fid fid2 : Nat)
    (h : IsExistExtent store fid = true) :
    IsExistExtent (createExtent store fid2) fid = true := by
  simp only [IsExistExtent, createExtent] at h ⊢
  simp only [List.elem_iff, List.mem_append] at h ⊢
  exact Or.inl h

theorem IsExistExtent_createExtent_self (store : ExtentStoreState) (fid : Nat) :
    IsExistExtent (createExtent store fid) fid = true := by
  simp only [IsExistExtent, createExtent]
  simp only [List.elem_iff, List.mem_append]
  exact Or.inr (List.mem_singleton.mpr rfl)

theorem deletePhase_events (bound : Nat) :
    ∀ (tasks : List FileInfo) (store : ExtentStoreState),
      ∀ e ∈ (deletePhase bound store tasks).2,
        ∃ id, e = RepairEvent.markDelete id := by
  intro tasks
  induction tasks with
  | nil =>
    intro store e he
    simp [deletePhase] at he
  | cons t rest ih =>
    intro store e he
    by_cases hb : t.FileId ≤ bound
    · simp only [deletePhase, if_pos hb] at he
      exact ih store e he
    · simp only [deletePhase, if_neg hb, List.mem_cons] at he
      rcases he with he | he
      · exact ⟨t.FileId, he⟩
      · exact ih _ e he

theorem addPhase_events (bound : Nat) (createOk : Nat → Bool) :
    ∀ (tasks : List FileInfo) (store : ExtentStoreState),
      ∀ e ∈ (addPhase bound createOk store tasks).2.2,
        ∃ id ok, e = RepairEvent.createAttempt id ok := by
  intro tasks
  induction tasks with
  | nil =>
    intro store e he
    simp [addPhase] at he
  | cons t rest ih =>
    intro store e he
    by_cases hb : t.FileId ≤ bound
    · simp only [addPhase, if_pos hb] at he
      exact ih store e he
    · by_cases hex : IsExistExtent store t.FileId = true
      · simp only [addPhase, if_neg hb, if_pos hex] at he
        exact ih store e he
      · by_cases hcr : createOk t.FileId = true
        · simp only [addPhase, if_neg hb, if_neg hex, if_pos hcr,
            List.mem_cons] at he
          rcases he with he | he
          · exact ⟨t.FileId, true, he⟩
          · exact ih _ e he
        · simp only [addPhase, if_neg hb, if_neg hex, if_neg hcr,
            List.mem_cons] at he
          rcases he with he | he
          · exact ⟨t.FileId, false, he⟩
          · exact ih _ e he

theorem fixPhase_events (bound : Nat) (store : ExtentStoreState) :
    ∀ tasks : List FileInfo,
      ∀ e ∈ (fixPhase bound store tasks).2,
        ∃ id src sz, e = RepairEvent.fixDispatch id src sz := by
  intro tasks
  induction tasks with
  | nil =>
    intro e he
    simp [fixPhase] at he
  | cons t rest ih =>
    intro e he
    by_cases hb : t.FileId ≤ bound
    · simp only [fixPhase, if_pos hb] at he
      exact ih e he
    · cases hex : IsExistExtent store t.FileId with
      | false =>
        simp only [fixPhase, if_neg hb] at he
        rw [if_pos (by simp [hex])] at he
        exact ih e he
      | true =>
        simp only [fixPhase, if_neg hb] at he
        rw [if_neg (by simp [hex])] at he
        rcases List.mem_cons.mp he with he | he
        · exact ⟨t.FileId, t.Source, t.Size, he⟩
        · exact ih e he

theorem addPhase_store_mono (bound : Nat) (createOk : Nat → Bool) :
    ∀ (tasks : List FileInfo) (store : ExtentStoreState) (fid : Nat),
      IsExistExtent store fid = true →
      IsExistExtent (addPhase bound createOk store tasks).1 fid = true := by
  intro tasks
  induction tasks with
  | nil =>
    intro store fid h
    exact h
  | cons t rest ih =>
    intro store fid h
    by_cases hb : t.FileId ≤ bound
    · simp only [addPhase, if_pos hb]
      exact ih store fid h
    · by_cases hex : IsExistExtent store t.FileId = true
      · simp only [addPhase, if_neg hb, if_pos hex]
        exact ih store fid h
      · by_cases hcr : createOk t.FileId = true
        · simp only [addPhase, if_neg hb, if_neg hex, if_pos hcr]
          exact ih _ fid (IsExistExtent_createExtent store fid t.FileId h)
        · simp only [addPhase, if_neg hb, if_neg hex, if_neg hcr]
          exact ih store fid h

theorem addPhase_derived (bound : Nat) (createOk : Nat → Bool) :
    ∀ (tasks : List FileInfo) (store : ExtentStoreState) (id : Nat),
      RepairEvent.createAttempt id true ∈ (addPhase bound createOk store tasks).2.2 →
      ∃ a, a ∈ tasks ∧ a.FileId = id ∧ bound < id ∧ createOk id = true ∧
        mkFixTask a ∈ (addPhase bound createOk store tasks).2.1 ∧
        IsExistExtent (addPhase bound createOk store tasks).1 id = true := by
  intro tasks
  induction tasks with
  | nil =>
    intro store id h
    simp [addPhase] at h
  | cons t rest ih =>
    intro store id h
    by_cases hb : t.FileId ≤ bound
    · simp only [addPhase, if_pos hb] at h ⊢
      rcases ih store id h with ⟨a, ha, h1, h2, h3, h4, h5⟩
      exact ⟨a, List.mem_cons_of_mem t ha, h1, h2, h3, h4, h5⟩
    · by_cases hex : IsExistExtent store t.FileId = true
      · simp only [addPhase, if_neg hb, if_pos hex] at h ⊢
        rcases ih store id h with ⟨a, ha, h1, h2, h3, h4, h5⟩
        exact ⟨a, List.mem_cons_of_mem t ha, h1, h2, h3, h4, h5⟩
      · by_cases hcr : createOk t.FileId = true
        · simp only [addPhase, if_neg hb, if_neg hex, if_pos hcr,
            List.mem_cons] at h ⊢
          rcases h with h | h
          · have hid : id = t.FileId := (RepairEvent.createAttempt.inj h).1
            subst hid
            refine ⟨t, Or.inl rfl, rfl, by omega, hcr, Or.inl rfl, ?_⟩
            exact addPhase_store_mono bound createOk rest
              (createExtent store t.FileId) t.FileId
              (IsExistExtent_createExtent_self store t.FileId)
          · rcases ih (createExtent store t.FileId) id h with
              ⟨a, ha, h1, h2, h3, h4, h5⟩
            exact ⟨a, Or.inr ha, h1, h2, h3, Or.inr h4, h5⟩
        · simp only [addPhase, if_neg hb, if_neg hex, if_neg hcr,
            List.mem_cons] at h ⊢
          rcases h with h | h
          · exact Bool.noConfusion (RepairEvent.createAttempt.inj h).2
          · rcases ih store id h with ⟨a, ha, h1, h2, h3, h4, h5⟩
            exact ⟨a, Or.inr ha, h1, h2, h3, h4, h5⟩

theorem fixPhase_mem (bound : Nat) (store : ExtentStoreState) :
    ∀ (tasks : List FileInfo) (t : FileInfo), t ∈ tasks → bound < t.FileId →
      IsExistExtent store t.FileId = true → t ∈ (fixPhase bound store tasks).1 := by
  intro tasks
  induction tasks with
  | nil =>
    intro t ht _ _
    simp at ht
  | cons u rest ih =>
    intro t ht hbt hext
    rcases List.mem_cons.mp ht with rfl | hmem
    · have hb : ¬ t.FileId ≤ bound := by omega
      simp only [fixPhase, if_neg hb]
      rw [if_neg (by simp [hext])]
      exact List.mem_cons_self _ _
    · by_cases hb : u.FileId ≤ bound
      · simp only [fixPhase, if_pos hb]
        exact ih t hmem hbt hext
      · cases hex2 : IsExistExtent store u.FileId with
        | false =>
          simp only [fixPhase, if_neg hb]
          rw [if_pos (by simp [hex2])]
          exact ih t hmem hbt hext
        | true =>
          simp only [fixPhase, if_neg hb]
          rw [if_neg (by simp [hex2])]
          exact List.mem_cons_of_mem _ (ih t hmem hbt hext)

/-- C4: within one `MergeExtentStoreRepair` call the trace is exactly the
deletion marks, then the creation attempts, then the resize dispatches —
every (bound-filtered) delete and add is applied before any resize is
dispatched; every add task whose extent was successfully created yields a
derived resize task with the same file id, source and size that is
appended to the bundle's resize list and dispatched in the same call; and
at return time the completed resize repairs are exactly the dispatched
ones (the fan-out is joined before returning). -/
theorem c4_merge_extent_repair (bound : Nat) (createOk : Nat → Bool)
    (store : ExtentStoreState) (metas : MembersFileMetas) :
    (∃ ev1 ev2 ev3,
      (MergeExtentStoreRepair bound createOk store metas).trace =
        ev1 ++ ev2 ++ ev3 ∧
      (∀ e ∈ ev1, ∃ id, e = RepairEvent.markDelete id) ∧
      (∀ e ∈ ev2, ∃ id ok, e = RepairEvent.createAttempt id ok) ∧
      (∀ e ∈ ev3, ∃ id src sz, e = RepairEvent.fixDispatch id src sz)) ∧
    (∀ id, RepairEvent.createAttempt id true ∈
        (MergeExtentStoreRepair bound createOk store metas).trace →
      ∃ a, a ∈ metas.NeedAddExtentsTasks ∧ a.FileId = id ∧ bound < id ∧
        createOk id = true ∧
        mkFixTask a ∈ (MergeExtentStoreRepair bound createOk store
          metas).metasAfter.NeedFixExtentSizeTasks ∧
        mkFixTask a ∈
          (MergeExtentStoreRepair bound createOk store metas).dispatchedFixes) ∧
    (MergeExtentStoreRepair bound createOk store metas).completedFixes =
      (MergeExtentStoreRepair bound createOk store metas).dispatchedFixes := by
  refine ⟨⟨(deletePhase bound store metas.NeedDeleteExtentsTasks).2,
    (addPhase bound createOk (deletePhase bound store metas.NeedDeleteExtentsTasks).1
      metas.NeedAddExtentsTasks).2.2,
    (fixPhase bound
      (addPhase bound createOk
        (deletePhase bound store metas.NeedDeleteExtentsTasks).1
        metas.NeedAddExtentsTasks).1
      (metas.NeedFixExtentSizeTasks ++
        (addPhase bound createOk
          (deletePhase bound store metas.NeedDeleteExtentsTasks).1
          metas.NeedAddExtentsTasks).2.1)).2,
    rfl,
    deletePhase_events bound metas.NeedDeleteExtentsTasks store,
    addPhase_events bound createOk metas.NeedAddExtentsTasks _,
    fixPhase_events bound _ _⟩, fun id hid => ?_, rfl⟩
  have hid2 : RepairEvent.createAttempt id true ∈
      (deletePhase bound store metas.NeedDeleteExtentsTasks).2 ++
        ((addPhase bound createOk
          (deletePhase bound store metas.NeedDeleteExtentsTasks).1
          metas.NeedAddExtentsTasks).2.2 ++
        (fixPhase bound
          (addPhase bound createOk
            (deletePhase bound store metas.NeedDeleteExtentsTasks).1
            metas.NeedAddExtentsTasks).1
          (metas.NeedFixExtentSizeTasks ++
            (addPhase bound createOk
              (deletePhase bound store metas.NeedDeleteExtentsTasks).1
              metas.NeedAddExtentsTasks).2.1)).2) := by
    have h := hid
    rw [show (MergeExtentStoreRepair bound createOk store metas).trace =
      (deletePhase bound store metas.NeedDeleteExtentsTasks).2 ++
        (addPhase bound createOk
          (deletePhase bound store metas.NeedDeleteExtentsTasks).1
          metas.NeedAddExtentsTasks).2.2 ++
        (fixPhase bound
          (addPhase bound createOk
            (deletePhase bound store metas.NeedDeleteExtentsTasks).1
            metas.NeedAddExtentsTasks).1
          (metas.NeedFixExtentSizeTasks ++
            (addPhase bound createOk
              (deletePhase bound store metas.NeedDeleteExtentsTasks).1
              metas.NeedAddExtentsTasks).2.1)).2 from rfl] at h
    rw [List.append_assoc] at h
    exact h
  rcases List.mem_append.mp hid2 with hin | hin
  · rcases deletePhase_events bound metas.NeedDeleteExtentsTasks store _ hin with
      ⟨id', heq⟩
    cases heq
  rcases List.mem_append.mp hin with hin2 | hin2
  · rcases addPhase_derived bound createOk metas.NeedAddExtentsTasks
      (deletePhase bound store metas.NeedDeleteExtentsTasks).1 id hin2 with
      ⟨a, ha, h1, h2, h3, h4, h5⟩
    refine ⟨a, ha, h1, h2, h3, List.mem_append_right _ h4, ?_⟩
    have hfid : (mkFixTask a).FileId = id := h1
    refine fixPhase_mem bound _ _ (mkFixTask a)
      (List.mem_append_right _ h4) (by rw [hfid]; exact h2) ?_
    rw [hfid]
    exact h5
  · rcases fixPhase_events bound _ _ _ hin2 with ⟨id', src, sz, heq⟩
    cases heq

/-- C4 witness: bound 25, one delete task (60), one add task (50)
that succeeds: the derived resize task for extent 50 carries source `s1`
and size 99 and is dispatched in the same call. -/
theorem c4_merge_extent_repair_witness :
    ∃ a, a ∈ [({ FileId := 50, Inode := 7, Size := 99, Source := "s1" } : FileInfo)] ∧
      a.FileId = 50 ∧ 25 < 50 ∧ (fun _ => true : Nat → Bool) 50 = true ∧
      mkFixTask a ∈ (MergeExtentStoreRepair 25 (fun _ => true)
        { extents := [], deleted := [] }
        { NeedAddExtentsTasks :=
            [{ FileId := 50, Inode := 7, Size := 99, Source := "s1" }]
          NeedDeleteExtentsTasks :=
            [{ FileId := 60, Inode := 0, Size := 0, Source := "" }]
          NeedFixExtentSizeTasks := []
          NeedFixBlobFileSizeTasks := []
          NeedDeleteObjectsTasks := [] }).metasAfter.NeedFixExtentSizeTasks ∧
      mkFixTask a ∈ (MergeExtentStoreRepair 25 (fun _ => true)
        { extents := [], deleted := [] }
        { NeedAddExtentsTasks :=
            [{ FileId := 50, Inode := 7, Size := 99, Source := "s1" }]
          NeedDeleteExtentsTasks :=
            [{ FileId := 60, Inode := 0, Size := 0, Source := "" }]
          NeedFixExtentSizeTasks := []
          NeedFixBlobFileSizeTasks := []
          NeedDeleteObjectsTasks := [] }).dispatchedFixes :=
  (c4_merge_extent_repair 25 (fun _ => true) { extents := [], deleted := [] }
      { NeedAddExtentsTasks :=
          [{ FileId := 50, Inode := 7, Size := 99, Source := "s1" }]
        NeedDeleteExtentsTasks :=
          [{ FileId := 60, Inode := 0, Size := 0, Source := "" }]
        NeedFixExtentSizeTasks := []
        NeedFixBlobFileSizeTasks := []
        NeedDeleteObjectsTasks := [] }).2.1 50 (by decide)

end ContainerFS
